import Mathlib

/-!
gimxudp: a verification development.

Shallow embedding of `src/posix/gudp.c` and `src/windows/sockets.c`.

* C strings are modelled by the list of their characters before the
  terminating NUL.
* `uint32_t` / `uint16_t` / `unsigned int` values are natural numbers; where the C code can
  wrap, the reduction modulo `2 ^ w` is written out.
* The C library routines the code calls (`strchr`, `inet_addr`, `inet_ntoa`, `sscanf`, `htonl`)
  are embedded after their glibc implementations on an LP64 host; the byte order of the host is a
  parameter `be` (`true` on a big-endian host).
* Operating-system calls are recorded in a trace of `Event`s; their results are supplied by the
  caller of the model.
-/

namespace Gudp

/-! ## C library: characters and numbers -/

/-- The libc `isdigit` in the C locale. -/
def isdigit (c : Char) : Bool := decide (48 ≤ c.toNat) && decide (c.toNat ≤ 57)

/-- The libc `isspace` in the C locale: space, `\t`, `\n`, `\v`, `\f`, `\r`. -/
def isspace (c : Char) : Bool := c.toNat == 32 || (decide (9 ≤ c.toNat) && decide (c.toNat ≤ 13))

/-- The libc `isascii`. -/
def isascii (c : Char) : Bool := decide (c.toNat < 128)

/-- Value of a character as a digit in `strtoul`: `0-9`, then letters from 10 on. -/
def digit_value (c : Char) : Option Nat :=
  if 48 ≤ c.toNat ∧ c.toNat ≤ 57 then some (c.toNat - 48)
  else if 97 ≤ c.toNat ∧ c.toNat ≤ 122 then some (c.toNat - 87)
  else if 65 ≤ c.toNat ∧ c.toNat ≤ 90 then some (c.toNat - 55)
  else none

/-- The digit loop of `strtoul`: consumes the digits valid in `base`, returns the
accumulated (unbounded) value and the unread text. -/
def strtoul_digits (base : Nat) : List Char → Nat → Nat × List Char
  | [], acc => (acc, [])
  | c :: cs, acc =>
    match digit_value c with
    | some d => if d < base then strtoul_digits base cs (acc * base + d) else (acc, c :: cs)
    | none => (acc, c :: cs)

/-- The call `strtoul (cp, &endp, 0)` on a text that starts with a digit: a `0x`/`0X` prefix
followed by a hexadecimal digit selects base 16, another leading `0` base 8, anything else
base 10. Returns the mathematical value and the text at `endp`. -/
def strtoul0 (s : List Char) : Nat × List Char :=
  match s with
  | [] => (0, [])
  | c :: t =>
    if c = '0' then
      match t with
      | x :: h :: rest =>
        if (x = 'x' ∨ x = 'X') ∧ (digit_value h).any (fun d => decide (d < 16)) then
          strtoul_digits 16 (h :: rest) 0
        else strtoul_digits 8 t 0
      | _ => strtoul_digits 8 t 0
    else strtoul_digits 10 s 0

/-- The libc `ULONG_MAX` on an LP64 host. -/
def ULONG_MAX : Nat := 2 ^ 64 - 1

/-- The conversion `printf ("%u")` of a number, with `fuel` digits at most. -/
def utoa_aux : Nat → Nat → List Char → List Char
  | 0, _, acc => acc
  | fuel + 1, n, acc =>
    if n / 10 = 0 then Nat.digitChar (n % 10) :: acc
    else utoa_aux fuel (n / 10) (Nat.digitChar (n % 10) :: acc)

/-- Decimal rendering of a number, as `printf ("%u")` writes it. -/
def utoa (n : Nat) : List Char := utoa_aux (n + 1) n []

/-! ## C library: byte order and addresses -/

/-- The sentinel `INADDR_NONE` of `<netinet/in.h>`. -/
def INADDR_NONE : Nat := 0xffffffff

/-- Byte swap of a 32-bit value. -/
def bswap32 (v : Nat) : Nat :=
  v % 256 * 2 ^ 24 + v / 2 ^ 8 % 256 * 2 ^ 16 + v / 2 ^ 16 % 256 * 2 ^ 8 + v / 2 ^ 24 % 256

/-- Byte swap of a 16-bit value. -/
def bswap16 (v : Nat) : Nat := v % 256 * 2 ^ 8 + v / 2 ^ 8 % 256

/-- The libc `htonl`: identity on a big-endian host. -/
def htonl (be : Bool) (v : Nat) : Nat := if be then v % 2 ^ 32 else bswap32 v

/-- The libc `ntohl`. -/
def ntohl (be : Bool) (v : Nat) : Nat := if be then v % 2 ^ 32 else bswap32 v

/-- The libc `htons`. -/
def htons (be : Bool) (v : Nat) : Nat := if be then v % 2 ^ 16 else bswap16 v

/-- The libc `ntohs`. -/
def ntohs (be : Bool) (v : Nat) : Nat := if be then v % 2 ^ 16 else bswap16 v

/-- The four bytes of a 32-bit word, in memory order. -/
def bytes_of_word (be : Bool) (w : Nat) : Nat × Nat × Nat × Nat :=
  if be then (w / 2 ^ 24 % 256, w / 2 ^ 16 % 256, w / 2 ^ 8 % 256, w % 256)
  else (w % 256, w / 2 ^ 8 % 256, w / 2 ^ 16 % 256, w / 2 ^ 24 % 256)

/-- The 32-bit word whose bytes, in memory order, are the given list (missing bytes are 0). -/
def word_of_bytes (be : Bool) (bs : List Nat) : Nat :=
  if be then bs.getD 0 0 * 2 ^ 24 + bs.getD 1 0 * 2 ^ 16 + bs.getD 2 0 * 2 ^ 8 + bs.getD 3 0
  else bs.getD 0 0 + bs.getD 1 0 * 2 ^ 8 + bs.getD 2 0 * 2 ^ 16 + bs.getD 3 0 * 2 ^ 24

/-- The libc `inet_ntoa`: the four bytes of the address, in memory order, as `%d.%d.%d.%d`. -/
def inet_ntoa (be : Bool) (s_addr : Nat) : List Char :=
  match bytes_of_word be s_addr with
  | (b0, b1, b2, b3) => utoa b0 ++ '.' :: (utoa b1 ++ '.' :: (utoa b2 ++ '.' :: utoa b3))

/-- The number loop of glibc's `inet_aton`. `room` is the number of bytes that may still be
stored before the last number (`room = 3 - (pp - res.bytes)`), `bytes` are the bytes stored
so far. Returns the stored bytes, the last number read, whether `strtoul` read anything, and
the text at the character that ended the loop; `none` stands for `goto ret_0`. -/
def inet_aton_loop : Nat → List Nat → List Char → Option (List Nat × Nat × Bool × List Char)
  | room, bytes, cp =>
    match cp with
    | [] => none
    | c :: _ =>
      if !isdigit c then none
      else
        match strtoul0 cp with
        | (val, endp) =>
          if val > 0xffffffff then none
          else
            match endp with
            | '.' :: cp1 =>
              match room with
              | 0 => none
              | room1 + 1 =>
                if val > 0xff then none
                else inet_aton_loop room1 (bytes ++ [val]) cp1
            | _ => some (bytes, val, decide (endp.length ≠ cp.length), endp)

/-- The table `max` of glibc's `inet_aton`: largest last number after `n` stored bytes. -/
def inet_aton_max (n : Nat) : Nat :=
  match n with
  | 0 => 0xffffffff
  | 1 => 0xffffff
  | 2 => 0xffff
  | _ => 0xff

/-- The glibc `inet_aton`: `none` when it returns 0, else the address stored. -/
def inet_aton (be : Bool) (cp : List Char) : Option Nat :=
  match inet_aton_loop 3 [] cp with
  | none => none
  | some (bytes, val, digit, rest) =>
    if (match rest with
        | [] => false
        | c :: _ => !isascii c || !isspace c) then none
    else if !digit then none
    else if val > inet_aton_max bytes.length then none
    else some (word_of_bytes be bytes ||| htonl be val)

/-- The libc `inet_addr`: `INADDR_NONE` when `inet_aton` fails. -/
def inet_addr (be : Bool) (cp : List Char) : Nat :=
  match inet_aton be cp with
  | some a => a
  | none => INADDR_NONE

/-! ## C library: `strchr` and `sscanf` -/

/-- The libc `strchr`, as the offset of the first occurrence (`none` for a null result). -/
def strchr : List Char → Char → Option Nat
  | [], _ => none
  | c :: cs, x => if c = x then some 0 else (strchr cs x).map (· + 1)

/-- Result of `sscanf (s, "%hu%n", &port, &pos)`: the return value, the value stored through
`&port` (if the conversion was done) and the value stored through `&pos`. -/
structure scan_result where
  ret : Int
  port : Option Nat
  pos : Option Nat
deriving DecidableEq, Repr

/-- The glibc `sscanf (s, "%hu%n", ...)`: white space is skipped, an optional sign is read,
then decimal digits; the digits are converted by `strtoul` (clamped to `ULONG_MAX`, negated
modulo `2 ^ 64` after a `-`) and the result is truncated to `unsigned short`. With no input
left before the conversion the result is `EOF`, with no digit it is 0. -/
def sscanf_hu_n (s : List Char) : scan_result :=
  let s1 := s.dropWhile isspace
  match s1 with
  | [] => ⟨-1, none, none⟩
  | c :: t =>
    let neg := decide (c = '-')
    let s2 := if c = '-' ∨ c = '+' then t else s1
    match strtoul_digits 10 s2 0 with
    | (v, rest) =>
      if rest.length = s2.length then ⟨0, none, none⟩
      else
        let ul := if v > ULONG_MAX then ULONG_MAX else if neg then (2 ^ 64 - v) % 2 ^ 64 else v
        ⟨1, some (ul % 2 ^ 16), some (s.length - rest.length)⟩

/-! ## `gudp.h`: data -/

/-- The `struct gudp_address`: `ip` in network byte order, `port` in host byte order. -/
structure gudp_address where
  ip : Nat
  port : Nat
deriving DecidableEq, Repr

/-! ## `gudp.c`: addresses -/

/-- The function `gudp_parse_address`. The second argument is the content of `*address` before
the call; the result is the return value and the content of `*address` after the call. -/
def gudp_parse_address (be : Bool) (cp : List Char) (address : gudp_address) :
    Int × gudp_address :=
  let len := cp.length
  if len + 1 > 22 then (-1, address)
  else if ' ' ∈ cp then (-1, address)
  else
    match strchr cp ':' with
    | none => (-1, address)
    | some sep =>
      let copy := cp.set sep ' '
      let ip := inet_addr be copy
      let r := sscanf_hu_n (copy.drop (sep + 1))
      let port := r.port.getD address.port
      let ret : Int := if r.ret ≠ 1 ∨ r.pos ≠ some (len - (sep + 1)) then -1 else 0
      let ret : Int := if ip = INADDR_NONE ∨ port = 0 then -1 else ret
      (ret, ⟨ip, port⟩)

/-- The function `gudp_ip_str`. -/
def gudp_ip_str (be : Bool) (ip : Nat) : List Char := inet_ntoa be ip

/-! ## Build and run-time configuration -/

/-- What the build and the environment fix: whether `WIN32` is defined, the byte order of the
host, and the two tests `GLOG_LEVEL(GLOG_NAME,ERROR)` and `GLOG_LEVEL(GLOG_NAME,DEBUG)` of the
logging library. -/
structure config where
  win32 : Bool
  be : Bool
  log_error : Bool
  log_debug : Bool
deriving DecidableEq, Repr

/-! ## Trace of calls -/

/-- The value passed to `setsockopt (SO_RCVTIMEO)`: a `struct timeval` on POSIX, an
`unsigned long` (milliseconds) on Windows. -/
inductive rcvtimeo where
  | timeval (tv_sec tv_usec : Nat)
  | millis (tv : Nat)
deriving DecidableEq, Repr

/-- Calls that leave the module: operating system, poller, user callbacks and log output. -/
inductive Event where
  | PRINT_ERROR_OTHER (msg : String)
  | PRINT_ERROR_ALLOC_FAILED (msg : String)
  | print_socket_error (msg : String)
  | fprintf_stderr (msg : String)
  | dprintf_send (count : Nat) (ip : List Char) (port : Nat)
  | dprintf_recv (ret : Int) (ip : List Char) (port : Nat)
  | WSAStartup (ret : Int)
  | WSACleanup
  | socket (ret : Int)
  | bind (fd : Int) (sin_port s_addr : Nat) (ret : Int)
  | connect (fd : Int) (sin_port s_addr : Nat) (ret : Int)
  | calloc (ok : Bool)
  | close (fd : Int)
  | sendto (fd : Int) (buf : List Nat) (count : Nat) (sin_port s_addr : Nat) (ret : Int)
  | setsockopt (fd : Int) (optval : rcvtimeo) (ret : Int)
  | recvfrom (fd : Int) (count : Nat) (ret : Int)
  | fp_register (fd : Int) (ret : Int)
  | fp_remove (fd : Int)
  | fp_read (user : Nat) (buf : List Nat) (status : Int) (ip port : Nat) (ret : Int)
  | fp_close (user : Nat) (ret : Int)
deriving DecidableEq, Repr

/-- The macro `PRINT_SOCKET_ERROR`: prints when the error level is enabled. -/
def PRINT_SOCKET_ERROR (cfg : config) (msg : String) : List Event :=
  if cfg.log_error then [Event.print_socket_error msg] else []

/-! ## `gudp.h` and `gudp.c`: sockets -/

/-- The `enum gudp_mode`. -/
inductive gudp_mode where
  | GUDP_MODE_CLIENT
  | GUDP_MODE_SERVER
deriving DecidableEq, Repr

/-- The `GUDP_CALLBACKS`. A null function pointer is `none`; a function is given by the value
it returns (its call is recorded in the trace). `fp_register` and `fp_remove` take the
descriptor, `fp_read` takes `user`, the buffer, the status and the address, `fp_close` takes
`user`. -/
structure GUDP_CALLBACKS where
  fp_read : Option (Nat → List Nat → Int → gudp_address → Int)
  fp_close : Option (Nat → Int)
  fp_register : Option (Int → Int)
  fp_remove : Option (Int → Int)

/-- The `struct gudp_socket`. -/
structure gudp_socket where
  fd : Int
  mode : gudp_mode
  callbacks : GUDP_CALLBACKS
  user : Nat
  buffer : List Nat

/-- The extent `sizeof(socket->buffer)`. -/
def BUFFER_SIZE : Nat := 1472

/-- A socket as `calloc` returns it, with `fd` and `mode` set. -/
def calloc_socket (fd : Int) (mode : gudp_mode) : gudp_socket :=
  ⟨fd, mode, ⟨none, none, none, none⟩, 0, List.replicate BUFFER_SIZE 0⟩

/-! ## `sockets.c` -/

/-- The Winsock constant `SOCKET_ERROR`. -/
def SOCKET_ERROR : Int := -1

/-- The function `wsa_init`, on the static `socket_count`; `startup` is what `WSAStartup`
returns if it is called. -/
def wsa_init (socket_count : Nat) (startup : Int) : Int × List Event :=
  if socket_count = 0 then
    if startup = SOCKET_ERROR then
      (-1, [Event.WSAStartup startup, Event.fprintf_stderr "WSAStartup failed."])
    else (0, [Event.WSAStartup startup])
  else (0, [])

/-- The function `wsa_count`: returns the new `socket_count`. -/
def wsa_count (error : Bool) (socket_count : Nat) : Nat × List Event :=
  let socket_count := if !error then (socket_count + 1) % 2 ^ 32 else socket_count
  (socket_count, if socket_count = 0 then [Event.WSACleanup] else [])

/-- The function `wsa_clean`: returns the new `socket_count`. -/
def wsa_clean (socket_count : Nat) : Nat × List Event :=
  let socket_count := (socket_count + 2 ^ 32 - 1) % 2 ^ 32
  (socket_count, if socket_count = 0 then [Event.WSACleanup] else [])

/-! ## `gudp.c`: open, send, receive -/

/-- Results of the calls `gudp_open` makes: `WSAStartup`, `socket`, `bind`, `connect` and
whether `calloc` returns memory. -/
structure open_os where
  WSAStartup_ret : Int
  socket_ret : Int
  bind_ret : Int
  connect_ret : Int
  calloc_ok : Bool
deriving DecidableEq, Repr

/-- The part of `gudp_open` after `wsa_init`: returns `error`, `s` and the trace. -/
def gudp_open_body (cfg : config) (mode : gudp_mode) (address : gudp_address) (os : open_os) :
    Bool × Option gudp_socket × List Event :=
  let fd := os.socket_ret
  let (error, tr) :=
    if fd = -1 then (true, Event.socket fd :: PRINT_SOCKET_ERROR cfg "socket")
    else (false, [Event.socket fd])
  let (error, tr) :=
    if fd ≠ -1 then
      match mode with
      | gudp_mode.GUDP_MODE_SERVER =>
        let ev := Event.bind fd (htons cfg.be address.port) address.ip os.bind_ret
        if os.bind_ret = -1 then (true, tr ++ ev :: PRINT_SOCKET_ERROR cfg "bind")
        else (error, tr ++ [ev])
      | gudp_mode.GUDP_MODE_CLIENT =>
        let ev := Event.connect fd (htons cfg.be address.port) address.ip os.connect_ret
        if os.connect_ret = -1 then (true, tr ++ ev :: PRINT_SOCKET_ERROR cfg "connect")
        else (error, tr ++ [ev])
    else (error, tr)
  let (error, s, tr) :=
    if !error then
      if os.calloc_ok then (error, some (calloc_socket fd mode), tr ++ [Event.calloc true])
      else (true, none, tr ++ [Event.calloc false, Event.PRINT_ERROR_ALLOC_FAILED "calloc"])
    else (error, none, tr)
  let tr := if error ∧ fd ≥ 0 then tr ++ [Event.close fd] else tr
  (error, s, tr)

/-- The function `gudp_open`: returns the socket (`none` for `NULL`), the new value of the
static `socket_count` of `sockets.c`, and the trace. -/
def gudp_open (cfg : config) (mode : gudp_mode) (address : gudp_address) (os : open_os)
    (socket_count : Nat) : Option gudp_socket × Nat × List Event :=
  if cfg.win32 then
    match wsa_init socket_count os.WSAStartup_ret with
    | (r, tr0) =>
      if r < 0 then (none, socket_count, tr0)
      else
        match gudp_open_body cfg mode address os with
        | (error, s, tr) =>
          match wsa_count error socket_count with
          | (socket_count, tr1) => (s, socket_count, tr0 ++ tr ++ tr1)
  else
    match gudp_open_body cfg mode address os with
    | (_, s, tr) => (s, socket_count, tr)

/-- The function `gudp_send`; `sendto_ret` is what `sendto` returns if it is called. -/
def gudp_send (cfg : config) (socket : gudp_socket) (buf : List Nat) (count : Nat)
    (address : gudp_address) (sendto_ret : Int) : Int × List Event :=
  if address.ip = 0 ∨ address.port = 0 then
    (-1, [Event.PRINT_ERROR_OTHER "ip and port should not be 0"])
  else
    let dbg :=
      if cfg.log_debug then [Event.dprintf_send count (gudp_ip_str cfg.be address.ip) address.port]
      else []
    let ev := Event.sendto socket.fd buf count (htons cfg.be address.port) address.ip sendto_ret
    let err := if sendto_ret < 0 then PRINT_SOCKET_ERROR cfg "sendto" else []
    (sendto_ret, dbg ++ ev :: err)

/-- The `errno` value `EAGAIN` (Linux). -/
def EAGAIN : Nat := 11

/-- The Winsock error `WSAETIMEDOUT`. -/
def WSAETIMEDOUT : Nat := 10060

/-- The Winsock error `WSAECONNRESET`. -/
def WSAECONNRESET : Nat := 10054

/-- Results of the calls `gudp_recv` makes: the two return values, the error code left by a
failed `recvfrom` (`errno`, or `GetLastError ()`), the bytes a successful `recvfrom` stores
and the sender it reports (`sin_port` in network byte order). -/
structure recv_os where
  setsockopt_ret : Int
  recvfrom_ret : Int
  error : Nat
  data : List Nat
  s_addr : Nat
  sin_port : Nat
deriving DecidableEq, Repr

/-- What `gudp_recv` leaves: return value, content of `buf`, content of `*address`, trace. -/
structure recv_result where
  ret : Int
  buf : List Nat
  address : Option gudp_address
  trace : List Event
deriving DecidableEq

/-- The value installed with `SO_RCVTIMEO` by `gudp_recv` for a timeout in milliseconds;
`unsigned int` arithmetic is modulo `2 ^ 32`. -/
def recv_optval (cfg : config) (timeout : Nat) : rcvtimeo :=
  if !cfg.win32 then
    let sec := timeout / 1000
    let usec := (timeout * 1000 % 2 ^ 32 + 2 ^ 32 - sec * 1000000 % 2 ^ 32) % 2 ^ 32
    rcvtimeo.timeval sec usec
  else rcvtimeo.millis timeout

/-- The function `gudp_recv`; `address` is `none` for a `NULL` pointer, else the content of
`*address` before the call. -/
def gudp_recv (cfg : config) (socket : gudp_socket) (buf : List Nat) (count timeout : Nat)
    (address : Option gudp_address) (os : recv_os) : recv_result :=
  match address with
  | none => ⟨-1, buf, none, [Event.PRINT_ERROR_OTHER "address should not be NULL"]⟩
  | some a =>
    let ev1 := Event.setsockopt socket.fd (recv_optval cfg timeout) os.setsockopt_ret
    if os.setsockopt_ret < 0 then
      ⟨-1, buf, some a, ev1 :: PRINT_SOCKET_ERROR cfg "setsockopt SO_RCVTIMEO"⟩
    else
      let ret := os.recvfrom_ret
      let ev2 := Event.recvfrom socket.fd count ret
      if ret < 0 then
        let quiet :=
          if !cfg.win32 then decide (os.error = EAGAIN)
          else decide (os.error = WSAETIMEDOUT) || decide (os.error = WSAECONNRESET)
        ⟨-1, buf, some a, ev1 :: ev2 :: (if quiet then [] else PRINT_SOCKET_ERROR cfg "recv")⟩
      else
        let stored := os.data.take count
        let a1 : gudp_address := ⟨os.s_addr, ntohs cfg.be os.sin_port⟩
        let dbg :=
          if cfg.log_debug then [Event.dprintf_recv ret (gudp_ip_str cfg.be a1.ip) a1.port]
          else []
        ⟨ret, stored ++ buf.drop stored.length, some a1, ev1 :: ev2 :: dbg⟩

/-! ## `gudp.c`: the poller's callbacks, registration, close -/

/-- The function `read_callback`. `address` is the indeterminate content of its local
variable. `none` is a call through a null function pointer. Returns the return value, the
content of `socket->buffer` afterwards, and the trace. -/
def read_callback (cfg : config) (socket : gudp_socket) (address : gudp_address) (os : recv_os) :
    Option (Int × List Nat × List Event) :=
  let r := gudp_recv cfg socket socket.buffer BUFFER_SIZE 0 (some address) os
  let address := r.address.getD address
  match socket.callbacks.fp_read with
  | none => none
  | some fp_read =>
    let ret := fp_read socket.user r.buf r.ret address
    some (ret, r.buf, r.trace ++ [Event.fp_read socket.user r.buf r.ret address.ip address.port ret])

/-- The function `close_callback`; `none` is a call through a null function pointer. -/
def close_callback (socket : gudp_socket) : Option (Int × List Event) :=
  match socket.callbacks.fp_close with
  | none => none
  | some fp_close => some (fp_close socket.user, [Event.fp_close socket.user (fp_close socket.user)])

/-- The function `gudp_register`: returns the return value, the socket afterwards, and the
trace. -/
def gudp_register (socket : gudp_socket) (user : Nat) (callbacks : GUDP_CALLBACKS) :
    Int × gudp_socket × List Event :=
  match callbacks.fp_register with
  | none => (-1, socket, [Event.PRINT_ERROR_OTHER "fp_register is NULL"])
  | some fp_register =>
    if callbacks.fp_remove.isNone then
      (-1, socket, [Event.PRINT_ERROR_OTHER "fp_remove is NULL"])
    else if callbacks.fp_read.isNone then
      (-1, socket, [Event.PRINT_ERROR_OTHER "fp_read is NULL"])
    else
      let ret := fp_register socket.fd
      let tr := [Event.fp_register socket.fd ret]
      if ret ≠ -1 then (ret, { socket with callbacks := callbacks, user := user }, tr)
      else (ret, socket, tr)

/-- The function `gudp_close`: returns the return value, the new value of the static
`socket_count` of `sockets.c`, and the trace. The socket itself is not written. -/
def gudp_close (cfg : config) (socket : gudp_socket) (socket_count : Nat) :
    Int × Nat × List Event :=
  if socket.fd ≥ 0 then
    let tr1 := if socket.callbacks.fp_remove.isSome then [Event.fp_remove socket.fd] else []
    let tr2 := [Event.close socket.fd]
    if cfg.win32 then
      match wsa_clean socket_count with
      | (socket_count, tr3) => (0, socket_count, tr1 ++ tr2 ++ tr3)
    else (0, socket_count, tr1 ++ tr2)
  else (0, socket_count, [])

/-! ## Predicates used in the statements -/

/-- Calls into the operating system's socket layer (log output is not counted). -/
def Event.is_os_call : Event → Bool
  | Event.WSAStartup _ => true
  | Event.WSACleanup => true
  | Event.socket _ => true
  | Event.bind _ _ _ _ => true
  | Event.connect _ _ _ _ => true
  | Event.close _ => true
  | Event.sendto _ _ _ _ _ _ => true
  | Event.setsockopt _ _ _ => true
  | Event.recvfrom _ _ _ => true
  | _ => false

/-- Calls of `sendto`. -/
def Event.is_sendto : Event → Bool
  | Event.sendto _ _ _ _ _ _ => true
  | _ => false

/-- Calls of `recvfrom`. -/
def Event.is_recvfrom : Event → Bool
  | Event.recvfrom _ _ _ => true
  | _ => false

/-- Calls of the poller's registration function. -/
def Event.is_fp_register : Event → Bool
  | Event.fp_register _ _ => true
  | _ => false

/-- Calls of the user's read handler. -/
def Event.is_fp_read : Event → Bool
  | Event.fp_read _ _ _ _ _ _ => true
  | _ => false

/-- Calls of `WSAStartup` that succeed: Winsock returns 0 on success and an error code (such as
`WSASYSNOTREADY` = 10091) on failure. -/
def Event.is_startup_ok : Event → Bool
  | Event.WSAStartup ret => decide (ret = 0)
  | _ => false

/-- Calls of `WSAStartup` whose result is not `SOCKET_ERROR`, the only result that `wsa_init`
treats as a failure. -/
def Event.is_startup_passed : Event → Bool
  | Event.WSAStartup ret => decide (ret ≠ SOCKET_ERROR)
  | _ => false

/-- Calls of `WSACleanup`. -/
def Event.is_cleanup : Event → Bool
  | Event.WSACleanup => true
  | _ => false

/-- A little-endian POSIX build with error logging on. -/
def posix_cfg : config := ⟨false, false, true, false⟩

/-- A little-endian Windows build with error logging on. -/
def win32_cfg : config := ⟨true, false, true, false⟩

/-- A socket opened on descriptor 3 and registered with all callbacks but `fp_close`. -/
def registered_socket : gudp_socket :=
  { calloc_socket 3 gudp_mode.GUDP_MODE_CLIENT with
    callbacks := ⟨some (fun _ _ _ _ => 0), none, some (fun _ => 0), some (fun _ => 0)⟩
    user := 7 }

/-! ## Runs of `gudp_open` and `gudp_close` -/

/-- A complete call of `gudp_open` (with the results the operating system gives it) or of
`gudp_close`. -/
inductive Op where
  | call_open (mode : gudp_mode) (address : gudp_address) (os : open_os)
  | call_close (socket : gudp_socket)

/-- State of a run: the static `socket_count` of `sockets.c`, the descriptors of the sockets
opened and not yet closed, and the trace so far. -/
structure World where
  socket_count : Nat
  opened : List Int
  trace : List Event

/-- The start: `socket_count = 0`, nothing opened, nothing called. -/
def World.init : World := ⟨0, [], []⟩

/-- One call. -/
def step (cfg : config) (w : World) : Op → World
  | Op.call_open mode address os =>
    ⟨(gudp_open cfg mode address os w.socket_count).2.1,
     (match (gudp_open cfg mode address os w.socket_count).1 with
      | some s => s.fd :: w.opened
      | none => w.opened),
     w.trace ++ (gudp_open cfg mode address os w.socket_count).2.2⟩
  | Op.call_close socket =>
    ⟨(gudp_close cfg socket w.socket_count).2.1, w.opened.erase socket.fd,
     w.trace ++ (gudp_close cfg socket w.socket_count).2.2⟩

/-- Calls a run may make. For `gudp_open`: `socket ()` returns -1 or a non-negative `int` that
is not a descriptor in use. For `gudp_close`: the socket is one opened and not yet closed. -/
def admissible (w : World) : Op → Bool
  | Op.call_open _ _ os =>
    decide (os.socket_ret = -1) ||
      (decide (0 ≤ os.socket_ret) && decide (os.socket_ret < 2 ^ 31) &&
        decide (os.socket_ret ∉ w.opened))
  | Op.call_close socket => decide (socket.fd ∈ w.opened)

/-- A sequence of calls all admissible in turn. -/
def valid (cfg : config) : World → List Op → Bool
  | _, [] => true
  | w, op :: ops => admissible w op && valid cfg (step cfg w op) ops

/-- The state after a sequence of calls. -/
def run (cfg : config) : World → List Op → World
  | w, [] => w
  | w, op :: ops => run cfg (step cfg w op) ops

/-- Results of the operating system for an open that succeeds on descriptor `fd`. -/
def os_ok (fd : Int) : open_os := ⟨0, fd, 0, 0, true⟩

/-- Results of the operating system for an open whose `bind` or `connect` fails. -/
def os_fail (fd : Int) : open_os := ⟨0, fd, -1, -1, true⟩

/-- A run: open on descriptor 3, a failed open on descriptor 4, open on descriptor 4, then
both sockets closed. -/
def sample_ops : List Op :=
  [Op.call_open gudp_mode.GUDP_MODE_SERVER ⟨0, 8080⟩ (os_ok 3),
   Op.call_open gudp_mode.GUDP_MODE_SERVER ⟨0, 8080⟩ (os_fail 4),
   Op.call_open gudp_mode.GUDP_MODE_CLIENT ⟨0x0100007f, 8080⟩ (os_ok 4),
   Op.call_close (calloc_socket 3 gudp_mode.GUDP_MODE_SERVER),
   Op.call_close (calloc_socket 4 gudp_mode.GUDP_MODE_CLIENT)]

/-- The Winsock error `WSASYSNOTREADY`, one of the codes a failed `WSAStartup` returns. -/
def WSASYSNOTREADY : Int := 10091

/-- A first `gudp_open` on Windows in which `WSAStartup` fails with `WSASYSNOTREADY` and
`socket ()` then returns `INVALID_SOCKET` (-1 as an `int`). -/
def startup_failure_ops : List Op :=
  [Op.call_open gudp_mode.GUDP_MODE_SERVER ⟨0, 8080⟩ ⟨WSASYSNOTREADY, -1, 0, 0, true⟩]

/-- What the invariant of a run says of a state. -/
def Inv (w : World) : Prop :=
  w.opened.Nodup ∧ (∀ fd ∈ w.opened, 0 ≤ fd ∧ fd < 2 ^ 31) ∧
  w.socket_count = w.opened.length ∧
  w.trace.countP Event.is_startup_passed
    = w.trace.countP Event.is_cleanup + (if 0 < w.socket_count then 1 else 0)

/-- A text on which the digit loop of `strtoul` stops at once. -/
def stops (rest : List Char) : Prop :=
  rest = [] ∨ ∃ c t, rest = c :: t ∧ digit_value c = none

/-! ## Lemmas on decimal rendering and its parsing -/

theorem digitChar_facts : ∀ d, d < 10 →
    digit_value (Nat.digitChar d) = some d ∧ isdigit (Nat.digitChar d) = true ∧
    isspace (Nat.digitChar d) = false ∧ Nat.digitChar d ≠ ' ' ∧ Nat.digitChar d ≠ ':' ∧
    Nat.digitChar d ≠ '.' ∧ Nat.digitChar d ≠ '-' ∧ Nat.digitChar d ≠ '+' ∧
    (Nat.digitChar d = '0' → d = 0) := by
  decide

theorem utoa_aux_append : ∀ (n fuel : Nat) (acc : List Char), n < fuel →
    utoa_aux fuel n acc = utoa_aux (n + 1) n [] ++ acc := by
  intro n
  induction n using Nat.strong_induction_on with
  | _ n ih =>
    intro fuel acc h
    obtain ⟨f, rfl⟩ : ∃ f, fuel = f + 1 := ⟨fuel - 1, by omega⟩
    simp only [utoa_aux]
    by_cases h0 : n / 10 = 0
    · simp [h0]
    · simp only [h0, if_false]
      rw [ih (n / 10) (by omega) f _ (by omega), ih (n / 10) (by omega) n [_] (by omega)]
      simp

theorem utoa_lt (n : Nat) (h : n < 10) : utoa n = [Nat.digitChar n] := by
  have h0 : n / 10 = 0 := by omega
  have h1 : n % 10 = n := by omega
  simp [utoa, utoa_aux, h0, h1]

theorem utoa_ge (n : Nat) (h : 10 ≤ n) :
    utoa n = utoa (n / 10) ++ [Nat.digitChar (n % 10)] := by
  have h0 : ¬ n / 10 = 0 := by omega
  show utoa_aux (n + 1) n [] = utoa_aux (n / 10 + 1) (n / 10) [] ++ [Nat.digitChar (n % 10)]
  rw [utoa_aux.eq_2, if_neg h0]
  exact utoa_aux_append (n / 10) n _ (by omega)

theorem utoa_isdigit (n : Nat) : ∀ c ∈ utoa n, isdigit c = true := by
  induction n using Nat.strong_induction_on with
  | _ n ih =>
    intro c hc
    by_cases h : n < 10
    · rw [utoa_lt n h] at hc
      simp only [List.mem_singleton] at hc
      subst hc
      exact (digitChar_facts n h).2.1
    · rw [utoa_ge n (by omega)] at hc
      simp only [List.mem_append, List.mem_singleton] at hc
      rcases hc with hc | hc
      · exact ih (n / 10) (by omega) c hc
      · subst hc
        exact (digitChar_facts (n % 10) (by omega)).2.1

theorem utoa_length_le (k : Nat) : ∀ n, n < 10 ^ (k + 1) → (utoa n).length ≤ k + 1 := by
  induction k with
  | zero =>
    intro n h
    rw [utoa_lt n (by simpa using h)]
    simp
  | succ k ih =>
    intro n h
    by_cases h10 : n < 10
    · rw [utoa_lt n h10]
      simp
    · rw [utoa_ge n (by omega)]
      have : n / 10 < 10 ^ (k + 1) := by
        rw [Nat.div_lt_iff_lt_mul (by norm_num)]
        rw [pow_succ] at h
        exact h
      have := ih (n / 10) this
      simp only [List.length_append, List.length_singleton]
      omega

theorem utoa_ne_nil (n : Nat) : utoa n ≠ [] := by
  by_cases h : n < 10
  · rw [utoa_lt n h]
    simp
  · rw [utoa_ge n (by omega)]
    simp

/-- The first character of the rendering of a positive number is a digit other than `0`. -/
theorem utoa_head (n : Nat) (hn : 0 < n) :
    ∃ d t, 0 < d ∧ d < 10 ∧ utoa n = Nat.digitChar d :: t := by
  induction n using Nat.strong_induction_on with
  | _ n ih =>
    by_cases h : n < 10
    · exact ⟨n, [], hn, h, utoa_lt n h⟩
    · obtain ⟨d, t, hd0, hd, ht⟩ := ih (n / 10) (by omega) (by omega)
      refine ⟨d, t ++ [Nat.digitChar (n % 10)], hd0, hd, ?_⟩
      rw [utoa_ge n (by omega), ht]
      simp

theorem strtoul_digits_digitChar (d : Nat) (hd : d < 10) (cs : List Char) (acc : Nat) :
    strtoul_digits 10 (Nat.digitChar d :: cs) acc = strtoul_digits 10 cs (acc * 10 + d) := by
  simp [strtoul_digits, (digitChar_facts d hd).1, hd]

theorem strtoul_digits_utoa (n : Nat) : ∀ (rest : List Char) (acc : Nat),
    strtoul_digits 10 (utoa n ++ rest) acc
      = strtoul_digits 10 rest (acc * 10 ^ (utoa n).length + n) := by
  induction n using Nat.strong_induction_on with
  | _ n ih =>
    intro rest acc
    by_cases h : n < 10
    · rw [utoa_lt n h]
      simp [strtoul_digits_digitChar n h]
    · rw [utoa_ge n (by omega)]
      rw [List.append_assoc, ih (n / 10) (by omega)]
      simp only [List.singleton_append, List.length_append, List.length_singleton]
      rw [strtoul_digits_digitChar _ (by omega)]
      congr 1
      rw [pow_succ]
      have := Nat.div_add_mod n 10
      nlinarith [Nat.div_add_mod n 10]

theorem stops_dot (t : List Char) : stops ('.' :: t) := Or.inr ⟨'.', t, rfl, by decide⟩

theorem stops_space (t : List Char) : stops (' ' :: t) := Or.inr ⟨' ', t, rfl, by decide⟩

theorem strtoul_digits_stops (base : Nat) (rest : List Char) (acc : Nat) (h : stops rest) :
    strtoul_digits base rest acc = (acc, rest) := by
  rcases h with rfl | ⟨c, t, rfl, hc⟩
  · simp [strtoul_digits]
  · simp [strtoul_digits, hc]

theorem strtoul0_utoa (b : Nat) (rest : List Char) (h : stops rest) :
    strtoul0 (utoa b ++ rest) = (b, rest) := by
  rcases Nat.eq_zero_or_pos b with rfl | hb
  · rw [utoa_lt 0 (by norm_num), show Nat.digitChar 0 = '0' from rfl]
    rcases h with rfl | ⟨c, t, rfl, hc⟩
    · simp [strtoul0, strtoul_digits]
    · have hx : ¬ (c = 'x' ∨ c = 'X') := by
        rintro (rfl | rfl) <;> revert hc <;> decide
      cases t with
      | nil => simp [strtoul0, strtoul_digits, hc]
      | cons h t => simp [strtoul0, strtoul_digits, hc, hx]
  · obtain ⟨d, t, hd0, hd, ht⟩ := utoa_head b hb
    have hne : Nat.digitChar d ≠ '0' := fun e => by
      have := (digitChar_facts d hd).2.2.2.2.2.2.2.2 e
      omega
    have e1 : strtoul0 (utoa b ++ rest) = strtoul_digits 10 (utoa b ++ rest) 0 := by
      rw [ht]
      simp [strtoul0, hne]
    rw [e1, strtoul_digits_utoa, strtoul_digits_stops _ _ _ h]
    simp

theorem utoa_append_head (b : Nat) (rest : List Char) :
    ∃ c t, utoa b ++ rest = c :: t ∧ isdigit c = true := by
  cases hu : utoa b with
  | nil => exact absurd hu (utoa_ne_nil b)
  | cons c t =>
    refine ⟨c, t ++ rest, by simp, utoa_isdigit b c ?_⟩
    rw [hu]
    exact List.mem_cons_self c t

theorem inet_aton_loop_dot (room : Nat) (bytes : List Nat) (b : Nat) (hb : b ≤ 0xff)
    (cp1 : List Char) :
    inet_aton_loop (room + 1) bytes (utoa b ++ '.' :: cp1)
      = inet_aton_loop room (bytes ++ [b]) cp1 := by
  obtain ⟨c, t, hct, hc⟩ := utoa_append_head b ('.' :: cp1)
  have hs := strtoul0_utoa b ('.' :: cp1) (stops_dot cp1)
  rw [hct] at hs ⊢
  rw [inet_aton_loop]
  have h1 : ¬ b > 0xffffffff := by omega
  have h2 : ¬ b > 0xff := by omega
  simp only [hc, hs, h1, h2]
  simp

theorem inet_aton_loop_space (room : Nat) (bytes : List Nat) (b : Nat) (hb : b ≤ 0xffffffff)
    (tl : List Char) :
    inet_aton_loop room bytes (utoa b ++ ' ' :: tl) = some (bytes, b, true, ' ' :: tl) := by
  obtain ⟨c, t, hct, hc⟩ := utoa_append_head b (' ' :: tl)
  have hs := strtoul0_utoa b (' ' :: tl) (stops_space tl)
  have hl : ¬ (' ' :: tl).length = (utoa b ++ ' ' :: tl).length := by
    have := utoa_ne_nil b
    have : 0 < (utoa b).length := List.length_pos.mpr this
    simp only [List.length_append]
    omega
  rw [hct] at hs hl ⊢
  rw [inet_aton_loop]
  have h1 : ¬ b > 0xffffffff := by omega
  simp only [hc, hs, h1]
  simp only [List.length_cons, Nat.add_right_cancel_iff] at hl
  simp [hl]

theorem word_or_htonl (be : Bool) (ip : Nat) (h : ip < 2 ^ 32) :
    word_of_bytes be [(bytes_of_word be ip).1, (bytes_of_word be ip).2.1,
        (bytes_of_word be ip).2.2.1] ||| htonl be (bytes_of_word be ip).2.2.2 = ip := by
  cases be
  · simp only [word_of_bytes, bytes_of_word, htonl, bswap32, Bool.false_eq_true, if_false,
      List.getD_cons_zero, List.getD_cons_succ, List.getD_nil]
    have e : ip / 2 ^ 24 % 256 % 256 * 2 ^ 24 + ip / 2 ^ 24 % 256 / 2 ^ 8 % 256 * 2 ^ 16
        + ip / 2 ^ 24 % 256 / 2 ^ 16 % 256 * 2 ^ 8 + ip / 2 ^ 24 % 256 / 2 ^ 24 % 256
        = 2 ^ 24 * (ip / 2 ^ 24) := by omega
    rw [e, Nat.lor_comm, ← Nat.mul_add_lt_is_or (by omega)]
    omega
  · simp only [word_of_bytes, bytes_of_word, htonl, if_true,
      List.getD_cons_zero, List.getD_cons_succ, List.getD_nil]
    have e : ip / 2 ^ 24 % 256 * 2 ^ 24 + ip / 2 ^ 16 % 256 * 2 ^ 16 + ip / 2 ^ 8 % 256 * 2 ^ 8 + 0
        = 2 ^ 8 * (ip / 2 ^ 8) := by omega
    have e2 : ip % 256 % 2 ^ 32 = ip % 256 := by omega
    rw [e, e2, ← Nat.mul_add_lt_is_or (by omega)]
    omega

theorem bytes_of_word_le (be : Bool) (ip : Nat) :
    (bytes_of_word be ip).1 ≤ 0xff ∧ (bytes_of_word be ip).2.1 ≤ 0xff ∧
    (bytes_of_word be ip).2.2.1 ≤ 0xff ∧ (bytes_of_word be ip).2.2.2 ≤ 0xff := by
  cases be <;> simp only [bytes_of_word, Bool.false_eq_true, if_false, if_true] <;> omega

/-- The library pair `inet_ntoa` / `inet_aton` round-trips, also before a space. -/
theorem inet_aton_inet_ntoa (be : Bool) (ip : Nat) (h : ip < 2 ^ 32) (tl : List Char) :
    inet_aton be (inet_ntoa be ip ++ ' ' :: tl) = some ip := by
  obtain ⟨h0, h1, h2, h3⟩ := bytes_of_word_le be ip
  have hw := word_or_htonl be ip h
  unfold inet_ntoa inet_aton
  generalize bytes_of_word be ip = q at h0 h1 h2 h3 hw
  obtain ⟨b0, b1, b2, b3⟩ := q
  simp only at h0 h1 h2 h3 hw
  simp only [List.append_assoc, List.cons_append]
  rw [inet_aton_loop_dot _ _ _ h0, inet_aton_loop_dot _ _ _ h1, inet_aton_loop_dot _ _ _ h2,
    inet_aton_loop_space _ _ _ (by omega)]
  have hm : ¬ b3 > 0xff := by omega
  simp only [List.nil_append, List.cons_append, List.length_cons, List.length_nil,
    inet_aton_max]
  rw [if_neg (by decide), if_neg (by decide), if_neg hm, hw]

theorem strchr_append (x : Char) (l r : List Char) (h : x ∉ l) :
    strchr (l ++ x :: r) x = some l.length := by
  induction l with
  | nil => simp [strchr]
  | cons c l ih =>
    have hc : c ≠ x := fun e => h (e ▸ List.mem_cons_self c l)
    have hl : x ∉ l := fun e => h (List.mem_cons_of_mem c e)
    simp [strchr, hc, ih hl]

theorem set_append (x y : Char) (l r : List Char) :
    (l ++ x :: r).set l.length y = l ++ y :: r := by
  induction l with
  | nil => simp
  | cons c l ih => simp [ih]

theorem sscanf_hu_n_utoa (port : Nat) (h1 : 1 ≤ port) (h2 : port ≤ 65535) :
    sscanf_hu_n (utoa port) = ⟨1, some port, some (utoa port).length⟩ := by
  obtain ⟨d, t, hd0, hd, ht⟩ := utoa_head port (by omega)
  have hf := digitChar_facts d hd
  have hp := strtoul_digits_utoa port [] 0
  rw [strtoul_digits_stops _ _ _ (Or.inl rfl), List.append_nil] at hp
  rw [ht] at hp
  have hsign : ¬ (Nat.digitChar d = '-' ∨ Nat.digitChar d = '+') := by
    rintro (e | e)
    · exact hf.2.2.2.2.2.2.1 e
    · exact hf.2.2.2.2.2.2.2.1 e
  have hm : ¬ port > ULONG_MAX := by
    simp only [ULONG_MAX]
    omega
  have hmod : port % 2 ^ 16 = port := by omega
  rw [ht]
  simp only [sscanf_hu_n, List.dropWhile_cons, hf.2.2.1, hsign, if_false, hp]
  simp [hf.2.2.2.2.2.2.1, hf.2.2.2.2.2.2.2.1, hp, hm]
  omega

theorem mem_utoa_ne (n : Nat) (x : Char) (hx : isdigit x = false) : x ∉ utoa n := by
  intro hm
  rw [utoa_isdigit n x hm] at hx
  exact Bool.noConfusion hx

theorem mem_inet_ntoa_ne (be : Bool) (ip : Nat) (x : Char) (hx : isdigit x = false)
    (hd : x ≠ '.') : x ∉ inet_ntoa be ip := by
  unfold inet_ntoa
  generalize bytes_of_word be ip = q
  obtain ⟨b0, b1, b2, b3⟩ := q
  simp only [List.mem_append, List.mem_cons, not_or]
  exact ⟨mem_utoa_ne b0 x hx, hd, mem_utoa_ne b1 x hx, hd, mem_utoa_ne b2 x hx, hd,
    mem_utoa_ne b3 x hx⟩

theorem inet_ntoa_length (be : Bool) (ip : Nat) : (inet_ntoa be ip).length ≤ 15 := by
  obtain ⟨h0, h1, h2, h3⟩ := bytes_of_word_le be ip
  unfold inet_ntoa
  generalize bytes_of_word be ip = q at h0 h1 h2 h3
  obtain ⟨b0, b1, b2, b3⟩ := q
  simp only at h0 h1 h2 h3
  have l0 := utoa_length_le 2 b0 (by omega)
  have l1 := utoa_length_le 2 b1 (by omega)
  have l2 := utoa_length_le 2 b2 (by omega)
  have l3 := utoa_length_le 2 b3 (by omega)
  simp only [List.length_append, List.length_cons]
  omega

/-- Round trip of `gudp_parse_address` on a rendered address, up to the sentinel test. -/
theorem parse_rendered (be : Bool) (ip port : Nat) (a0 : gudp_address)
    (hip : ip < 2 ^ 32) (h1 : 1 ≤ port) (h2 : port ≤ 65535) :
    gudp_parse_address be (gudp_ip_str be ip ++ ':' :: utoa port) a0
      = (if ip = INADDR_NONE then -1 else 0, ⟨ip, port⟩) := by
  have hlen := inet_ntoa_length be ip
  have hplen := utoa_length_le 4 port (by omega)
  have hsp1 : ' ' ∉ inet_ntoa be ip := mem_inet_ntoa_ne be ip ' ' (by decide) (by decide)
  have hsp2 : ' ' ∉ utoa port := mem_utoa_ne port ' ' (by decide)
  have hcol : ':' ∉ inet_ntoa be ip := mem_inet_ntoa_ne be ip ':' (by decide) (by decide)
  have hsp : ¬ ' ' ∈ inet_ntoa be ip ++ ':' :: utoa port := by
    simp only [List.mem_append, List.mem_cons, not_or]
    exact ⟨hsp1, by decide, hsp2⟩
  have hl : ¬ (inet_ntoa be ip ++ ':' :: utoa port).length + 1 > 22 := by
    simp only [List.length_append, List.length_cons]
    omega
  have hport : ¬ port = 0 := by omega
  unfold gudp_parse_address gudp_ip_str
  simp only [hl, hsp, if_false, strchr_append ':' _ _ hcol, set_append, List.drop_left',
    List.drop_append_of_le_length, inet_addr, inet_aton_inet_ntoa be ip hip]
  have hd : List.drop ((inet_ntoa be ip).length + 1) (inet_ntoa be ip ++ ' ' :: utoa port)
      = utoa port := by
    rw [← List.drop_drop, List.drop_left]
    rfl
  have ha : (inet_ntoa be ip).length + ((utoa port).length + 1) - ((inet_ntoa be ip).length + 1)
      = (utoa port).length := by omega
  rw [hd, sscanf_hu_n_utoa port h1 h2]
  simp [hport, ha]

/-! ## Lemmas on `gudp_parse_address` -/

theorem strchr_none (x : Char) (cp : List Char) (h : x ∉ cp) : strchr cp x = none := by
  induction cp with
  | nil => rfl
  | cons c cp ih =>
    have hc : c ≠ x := fun e => h (e ▸ List.mem_cons_self c cp)
    have hl : x ∉ cp := fun e => h (List.mem_cons_of_mem c e)
    simp [strchr, hc, ih hl]

theorem strchr_some (x : Char) : ∀ (cp : List Char) (sep : Nat), strchr cp x = some sep →
    sep < cp.length ∧ cp = cp.take sep ++ x :: cp.drop (sep + 1) := by
  intro cp
  induction cp with
  | nil => intro sep h; simp [strchr] at h
  | cons c cp ih =>
    intro sep h
    by_cases hc : c = x
    · simp only [strchr, hc, if_true, Option.some.injEq] at h
      subst h
      simp [hc]
    · simp only [strchr, hc, if_false, Option.map_eq_some'] at h
      obtain ⟨n, hn, rfl⟩ := h
      obtain ⟨h1, h2⟩ := ih n hn
      refine ⟨by simp only [List.length_cons]; omega, ?_⟩
      simp only [List.take_succ_cons, List.drop_succ_cons, List.cons_append]
      rw [← h2]

theorem sscanf_hu_n_nil : sscanf_hu_n [] = ⟨-1, none, none⟩ := rfl

/-- The return value of `gudp_parse_address` once the separator is found, in terms of the two
library calls. -/
theorem gudp_parse_address_sep (be : Bool) (cp : List Char) (address : gudp_address) (sep : Nat)
    (hlen : cp.length ≤ 21) (hsp : ' ' ∉ cp) (hsep : strchr cp ':' = some sep) :
    gudp_parse_address be cp address
      = (if inet_addr be (cp.take sep ++ ' ' :: cp.drop (sep + 1)) = INADDR_NONE ∨
            (sscanf_hu_n (cp.drop (sep + 1))).port.getD address.port = 0 then -1
          else if (sscanf_hu_n (cp.drop (sep + 1))).ret ≠ 1 ∨
            (sscanf_hu_n (cp.drop (sep + 1))).pos ≠ some (cp.drop (sep + 1)).length then -1
          else 0,
         ⟨inet_addr be (cp.take sep ++ ' ' :: cp.drop (sep + 1)),
          (sscanf_hu_n (cp.drop (sep + 1))).port.getD address.port⟩) := by
  obtain ⟨hlt, hcp⟩ := strchr_some ':' cp sep hsep
  have hl : ¬ cp.length + 1 > 22 := by omega
  have hset : cp.set sep ' ' = cp.take sep ++ ' ' :: cp.drop (sep + 1) := by
    rw [List.set_eq_take_append_cons_drop, if_pos hlt]
  have hdrop : (cp.take sep ++ ' ' :: cp.drop (sep + 1)).drop (sep + 1) = cp.drop (sep + 1) := by
    have hp : (cp.take sep).length = sep := by simp; omega
    generalize cp.take sep = p at hp
    subst hp
    rw [← List.drop_drop, List.drop_left]
    rfl
  unfold gudp_parse_address
  simp only [hl, hsp, if_false, hsep, hset, hdrop, List.length_drop]

/-! ## `inet_aton` reads a space as it reads the end of the text -/

theorem strtoul_digits_space (base : Nat) (r : List Char) : ∀ (p : List Char) (acc : Nat),
    strtoul_digits base (p ++ ' ' :: r) acc
      = ((strtoul_digits base p acc).1, (strtoul_digits base p acc).2 ++ ' ' :: r) := by
  intro p
  induction p with
  | nil =>
    intro acc
    simp [strtoul_digits, show digit_value ' ' = none by decide]
  | cons c p ih =>
    intro acc
    simp only [List.cons_append, strtoul_digits]
    cases hd : digit_value c with
    | none => simp
    | some d =>
      by_cases hb : d < base
      · simp only [hb, if_true]
        exact ih _
      · simp [hb]

theorem strtoul0_space (r : List Char) (p : List Char) :
    strtoul0 (p ++ ' ' :: r) = ((strtoul0 p).1, (strtoul0 p).2 ++ ' ' :: r) := by
  have hsp : digit_value ' ' = none := by decide
  cases p with
  | nil =>
    simp [strtoul0, strtoul_digits, hsp]
  | cons c t =>
    by_cases hc : c = '0'
    · subst hc
      cases t with
      | nil =>
        cases r with
        | nil => simp [strtoul0, strtoul_digits, hsp]
        | cons h r => simp [strtoul0, strtoul_digits, hsp]
      | cons x t =>
        cases t with
        | nil =>
          have := strtoul_digits_space 8 r [x] 0
          simp only [List.cons_append, List.nil_append] at this
          simp [strtoul0, hsp, this]
        | cons h t =>
          have h8 := strtoul_digits_space 8 r (x :: h :: t) 0
          have h16 := strtoul_digits_space 16 r (h :: t) 0
          simp only [List.cons_append] at h8 h16
          simp only [strtoul0, List.cons_append, if_true]
          split
          · exact h16
          · exact h8
    · have := strtoul_digits_space 10 r (c :: t) 0
      simp only [List.cons_append] at this
      simp [strtoul0, hc, this]

theorem inet_aton_loop_append_space (r : List Char) : ∀ (room : Nat) (bytes : List Nat)
    (p : List Char),
    inet_aton_loop room bytes (p ++ ' ' :: r)
      = (inet_aton_loop room bytes p).map
          (fun q => (q.1, q.2.1, q.2.2.1, q.2.2.2 ++ ' ' :: r)) := by
  intro room
  induction room with
  | zero =>
    intro bytes p
    cases p with
    | nil => simp [inet_aton_loop, show isdigit ' ' = false by decide]
    | cons c t =>
      have hs := strtoul0_space r (c :: t)
      simp only [List.cons_append] at hs
      rw [List.cons_append, inet_aton_loop, inet_aton_loop, hs]
      by_cases hd : isdigit c = true
      · simp only [hd, Bool.not_true, Bool.false_eq_true, if_false]
        by_cases hv : (strtoul0 (c :: t)).1 > 0xffffffff
        · simp [hv]
        · simp only [hv, if_false]
          cases he : (strtoul0 (c :: t)).2 with
          | nil =>
            simp
            omega
          | cons e es =>
            by_cases hdot : e = '.'
            · subst hdot
              simp
            · simp [hdot]
      · simp [hd]
  | succ room ih =>
    intro bytes p
    cases p with
    | nil => simp [inet_aton_loop, show isdigit ' ' = false by decide]
    | cons c t =>
      have hs := strtoul0_space r (c :: t)
      simp only [List.cons_append] at hs
      rw [List.cons_append, inet_aton_loop, inet_aton_loop, hs]
      by_cases hd : isdigit c = true
      · simp only [hd, Bool.not_true, Bool.false_eq_true, if_false]
        by_cases hv : (strtoul0 (c :: t)).1 > 0xffffffff
        · simp [hv]
        · simp only [hv, if_false]
          cases he : (strtoul0 (c :: t)).2 with
          | nil =>
            simp
            omega
          | cons e es =>
            by_cases hdot : e = '.'
            · subst hdot
              by_cases hb : (strtoul0 (c :: t)).1 > 0xff
              · simp [hb]
              · simp only [List.cons_append, hb, if_false]
                exact ih _ _
            · simp [hdot]
      · simp [hd]

/-- The call `inet_addr` on a text followed by a space and anything is the call on the text. -/
theorem inet_addr_append_space (be : Bool) (p r : List Char) :
    inet_addr be (p ++ ' ' :: r) = inet_addr be p := by
  unfold inet_addr inet_aton
  rw [inet_aton_loop_append_space]
  cases inet_aton_loop 3 [] p with
  | none => rfl
  | some q =>
    obtain ⟨bytes, val, digit, rest⟩ := q
    cases rest with
    | nil => simp [show isascii ' ' = true by decide, show isspace ' ' = true by decide]
    | cons c rest => simp

/-! ## Lemmas on the socket count -/

theorem length_le_of_nodup_bounded (l : List Int) (hn : l.Nodup)
    (hb : ∀ x ∈ l, 0 ≤ x ∧ x < 2 ^ 31) : l.length ≤ 2 ^ 31 := by
  have hsub : l.toFinset ⊆ Finset.Ico (0 : Int) (2 ^ 31) := by
    intro x hx
    rw [List.mem_toFinset] at hx
    rw [Finset.mem_Ico]
    exact hb x hx
  have hcard := Finset.card_le_card hsub
  rw [List.toFinset_card_of_nodup hn, Int.card_Ico] at hcard
  simpa using hcard

theorem gudp_open_body_spec (cfg : config) (mode : gudp_mode) (address : gudp_address)
    (os : open_os) :
    ((gudp_open_body cfg mode address os).1 = true ∧
      (gudp_open_body cfg mode address os).2.1 = none ∨
     (gudp_open_body cfg mode address os).1 = false ∧ os.socket_ret ≠ -1 ∧
      (gudp_open_body cfg mode address os).2.1 = some (calloc_socket os.socket_ret mode)) ∧
    (gudp_open_body cfg mode address os).2.2.countP Event.is_startup_passed = 0 ∧
    (gudp_open_body cfg mode address os).2.2.countP Event.is_cleanup = 0 := by
  unfold gudp_open_body PRINT_SOCKET_ERROR
  by_cases hfd : os.socket_ret = -1
  · cases hl : cfg.log_error <;>
      simp [hfd, hl, List.countP_cons, Event.is_startup_passed, Event.is_cleanup]
  · by_cases hge : os.socket_ret ≥ 0
    · cases mode
      · by_cases hc : os.connect_ret = -1
        · cases hl : cfg.log_error <;>
            simp [hfd, hge, hc, hl, List.countP_cons, Event.is_startup_passed, Event.is_cleanup]
        · cases hk : os.calloc_ok <;>
            simp [hfd, hge, hc, hk, List.countP_cons, Event.is_startup_passed, Event.is_cleanup]
      · by_cases hc : os.bind_ret = -1
        · cases hl : cfg.log_error <;>
            simp [hfd, hge, hc, hl, List.countP_cons, Event.is_startup_passed, Event.is_cleanup]
        · cases hk : os.calloc_ok <;>
            simp [hfd, hge, hc, hk, List.countP_cons, Event.is_startup_passed, Event.is_cleanup]
    · cases mode
      · by_cases hc : os.connect_ret = -1
        · cases hl : cfg.log_error <;>
            simp [hfd, hge, hc, hl, List.countP_cons, Event.is_startup_passed, Event.is_cleanup]
        · cases hk : os.calloc_ok <;>
            simp [hfd, hge, hc, hk, List.countP_cons, Event.is_startup_passed, Event.is_cleanup]
      · by_cases hc : os.bind_ret = -1
        · cases hl : cfg.log_error <;>
            simp [hfd, hge, hc, hl, List.countP_cons, Event.is_startup_passed, Event.is_cleanup]
        · cases hk : os.calloc_ok <;>
            simp [hfd, hge, hc, hk, List.countP_cons, Event.is_startup_passed, Event.is_cleanup]

/-- On Windows a call of `gudp_open` either fails, leaves `socket_count` as it was and runs as
many `WSACleanup` as `WSAStartup` with a result other than `SOCKET_ERROR`, or succeeds on the descriptor `socket ()` gave,
adds one to `socket_count`, runs no `WSACleanup`, and runs `WSAStartup` if the count was 0. -/
theorem gudp_open_spec (cfg : config) (hw : cfg.win32 = true) (mode : gudp_mode)
    (address : gudp_address) (os : open_os) (c : Nat) (hc : c + 1 < 2 ^ 32) :
    ((gudp_open cfg mode address os c).1 = none ∧
      (gudp_open cfg mode address os c).2.1 = c ∧
      (gudp_open cfg mode address os c).2.2.countP Event.is_startup_passed
        = (gudp_open cfg mode address os c).2.2.countP Event.is_cleanup) ∨
    ((gudp_open cfg mode address os c).1 = some (calloc_socket os.socket_ret mode) ∧
      os.socket_ret ≠ -1 ∧
      (gudp_open cfg mode address os c).2.1 = c + 1 ∧
      (gudp_open cfg mode address os c).2.2.countP Event.is_cleanup = 0 ∧
      (gudp_open cfg mode address os c).2.2.countP Event.is_startup_passed
        = if c = 0 then 1 else 0) := by
  obtain ⟨hb, hs, hk⟩ := gudp_open_body_spec cfg mode address os
  unfold gudp_open wsa_init wsa_count
  generalize gudp_open_body cfg mode address os = b at hb hs hk
  obtain ⟨error, sk, tr⟩ := b
  simp only at hb hs hk
  have hmod : (c + 1) % 4294967296 = c + 1 := Nat.mod_eq_of_lt hc
  have hne : ¬ (c + 1) % 4294967296 = 0 := by omega
  have hc1 : c + 1 < 4294967296 := hc
  by_cases hc0 : c = 0
  · subst hc0
    by_cases hst : os.WSAStartup_ret = SOCKET_ERROR
    · left
      simp [hw, hst, List.countP_cons, Event.is_startup_passed, Event.is_cleanup]
    · rcases hb with ⟨he, hn⟩ | ⟨he, hfd, hn⟩
      · left
        subst he hn
        simp [hw, hst, hs, hk, List.countP_cons, List.countP_append, Event.is_startup_passed,
          Event.is_cleanup]
      · right
        subst he hn
        simp [hw, hst, hs, hk, hfd, List.countP_cons, List.countP_append, Event.is_startup_passed,
          Event.is_cleanup]
  · rcases hb with ⟨he, hn⟩ | ⟨he, hfd, hn⟩
    · left
      subst he hn
      simp [hw, hc0, hs, hk, List.countP_append]
    · right
      subst he hn
      simp [hw, hc0, hs, hk, hfd, hmod, hne, hc1, List.countP_append]

/-- On Windows a call of `gudp_close` on a socket with a valid descriptor, while
`socket_count` is positive, takes one from `socket_count`, runs no `WSAStartup`, and runs
`WSACleanup` once if the count reaches 0. -/
theorem gudp_close_spec (cfg : config) (hw : cfg.win32 = true) (socket : gudp_socket) (c : Nat)
    (hfd : 0 ≤ socket.fd) (h0 : 0 < c) (hc : c < 2 ^ 32) :
    (gudp_close cfg socket c).2.1 = c - 1 ∧
    (gudp_close cfg socket c).2.2.countP Event.is_startup_passed = 0 ∧
    (gudp_close cfg socket c).2.2.countP Event.is_cleanup = if c = 1 then 1 else 0 := by
  have hmod : (c + 4294967295) % 4294967296 = c - 1 := by omega
  have hge : socket.fd ≥ 0 := hfd
  unfold gudp_close wsa_clean
  by_cases h1 : c = 1
  · subst h1
    cases hr : socket.callbacks.fp_remove <;>
      simp [hw, hge, hr, List.countP_cons, Event.is_startup_passed, Event.is_cleanup]
  · have h2 : ¬ (c + 4294967295) % 4294967296 = 0 := by omega
    have h3 : ¬ c - 1 = 0 := by omega
    cases hr : socket.callbacks.fp_remove <;>
      simp [hw, hge, hr, hmod, h1, h2, h3, List.countP_cons, Event.is_startup_passed,
        Event.is_cleanup]

theorem Inv_init : Inv World.init := by
  simp [Inv, World.init]

theorem Inv_bound (w : World) (h : Inv w) : w.socket_count ≤ 2 ^ 31 := by
  obtain ⟨hn, hb, hcnt, _⟩ := h
  rw [hcnt]
  exact length_le_of_nodup_bounded w.opened hn hb

theorem Inv_step (cfg : config) (hw : cfg.win32 = true) (w : World) (op : Op) (h : Inv w)
    (ha : admissible w op = true) : Inv (step cfg w op) := by
  have hbound := Inv_bound w h
  obtain ⟨hn, hb, hcnt, htr⟩ := h
  cases op with
  | call_open mode address os =>
    have hspec := gudp_open_spec cfg hw mode address os w.socket_count (by omega)
    simp only [admissible, Bool.or_eq_true, Bool.and_eq_true, decide_eq_true_eq] at ha
    simp only [step, Inv]
    rcases hspec with ⟨hs, hc1, hbal⟩ | ⟨hs, hfd, hc1, hk, hst⟩
    · simp only [hs, hc1]
      refine ⟨hn, hb, hcnt, ?_⟩
      simp only [List.countP_append, htr, hbal]
      omega
    · simp only [hs, hc1]
      rcases ha with ha | ⟨⟨ha0, ha1⟩, ha2⟩
      · exact absurd ha hfd
      · refine ⟨?_, ?_, ?_, ?_⟩
        · exact List.nodup_cons.mpr ⟨ha2, hn⟩
        · intro fd hfdm
          rcases List.mem_cons.mp hfdm with e | e
          · subst e
            exact ⟨ha0, ha1⟩
          · exact hb fd e
        · simp only [calloc_socket, List.length_cons, hcnt]
        · simp only [List.countP_append, htr, hk, hst]
          by_cases h0 : w.socket_count = 0
          · simp [h0]
          · have : 0 < w.socket_count := Nat.pos_of_ne_zero h0
            simp [h0, this]
  | call_close socket =>
    simp only [admissible, decide_eq_true_eq] at ha
    have hfd := (hb socket.fd ha).1
    have hpos : 0 < w.socket_count := by
      rw [hcnt]
      exact List.length_pos_of_mem ha
    obtain ⟨hc1, hst, hk⟩ := gudp_close_spec cfg hw socket w.socket_count hfd hpos (by omega)
    simp only [step, Inv, hc1]
    refine ⟨hn.erase _, ?_, ?_, ?_⟩
    · intro fd hfdm
      exact hb fd (List.mem_of_mem_erase hfdm)
    · simp only [List.length_erase_of_mem ha, hcnt]
    · simp only [List.countP_append, htr, hst, hk]
      by_cases h1 : w.socket_count = 1
      · simp [h1]
      · have : 0 < w.socket_count - 1 := by omega
        simp [h1, this, hpos]

theorem Inv_run (cfg : config) (hw : cfg.win32 = true) : ∀ (ops : List Op) (w : World),
    Inv w → valid cfg w ops = true → Inv (run cfg w ops) := by
  intro ops
  induction ops with
  | nil => intro w h _; exact h
  | cons op ops ih =>
    intro w h hv
    simp only [valid, Bool.and_eq_true] at hv
    exact ih (step cfg w op) (Inv_step cfg hw w op h hv.1) hv.2

/-! ## Address text: round trip, rejection, accepted port texts -/

/-- C1, as stated, fails: the address 255.255.255.255 (a 32-bit value) with port 80 is rendered
as `255.255.255.255:80`, and `gudp_parse_address` returns -1 on that text, because the value
`inet_addr` returns is the sentinel `INADDR_NONE`. -/
theorem roundtrip_fails_on_inaddr_none :
    (0xffffffff < 2 ^ 32 ∧ 1 ≤ 80 ∧ 80 ≤ 65535) ∧
    gudp_ip_str false 0xffffffff ++ ':' :: utoa 80 = "255.255.255.255:80".toList ∧
    gudp_parse_address false (gudp_ip_str false 0xffffffff ++ ':' :: utoa 80) ⟨0, 0⟩
      = (-1, ⟨0xffffffff, 80⟩) := by
  decide

/-- C1, amended: for every 32-bit ip (network byte order) other than `INADDR_NONE`
(255.255.255.255) and every port in 1..65535, `gudp_parse_address` applied to
`gudp_ip_str(ip)` followed by `:` and the decimal rendering of the port returns 0 and stores
the original ip and port, whatever `*address` held before and on either byte order. -/
theorem parse_address_roundtrip (be : Bool) (ip port : Nat) (address : gudp_address)
    (hip : ip < 2 ^ 32) (hne : ip ≠ INADDR_NONE) (h1 : 1 ≤ port) (h2 : port ≤ 65535) :
    gudp_parse_address be (gudp_ip_str be ip ++ ':' :: utoa port) address = (0, ⟨ip, port⟩) := by
  rw [parse_rendered be ip port address hip h1 h2, if_neg hne]

/-- C1, amended, at 127.0.0.1 port 8080 on a little-endian host. -/
theorem parse_address_roundtrip_witness :
    gudp_parse_address false (gudp_ip_str false 0x0100007f ++ ':' :: utoa 8080) ⟨0, 0⟩
      = (0, ⟨0x0100007f, 8080⟩) :=
  parse_address_roundtrip false 0x0100007f 8080 ⟨0, 0⟩ (by decide) (by decide) (by decide)
    (by decide)

/-- The rejections of `gudp_parse_address` that hold: it returns -1 on every text that is
longer than 21 characters, or contains a space, or contains no `:`, or whose part before the
first `:` makes `inet_addr` return `INADDR_NONE`, or whose part after the first `:` is empty,
or on which the conversion `%hu` of `sscanf` fails, or has characters left after what `%hu`
read, or gives the port value 0. -/
theorem parse_address_rejects (be : Bool) (cp : List Char) (address : gudp_address)
    (h : 21 < cp.length ∨ ' ' ∈ cp ∨ ':' ∉ cp ∨
      ∃ sep, strchr cp ':' = some sep ∧
        (inet_addr be (cp.take sep) = INADDR_NONE ∨
         cp.drop (sep + 1) = [] ∨
         (sscanf_hu_n (cp.drop (sep + 1))).ret ≠ 1 ∨
         (sscanf_hu_n (cp.drop (sep + 1))).pos ≠ some (cp.drop (sep + 1)).length ∨
         (sscanf_hu_n (cp.drop (sep + 1))).port = some 0)) :
    (gudp_parse_address be cp address).1 = -1 := by
  by_cases hlen : 21 < cp.length
  · have : cp.length + 1 > 22 := by omega
    simp [gudp_parse_address, this]
  by_cases hsp : ' ' ∈ cp
  · have : ¬ cp.length + 1 > 22 := by omega
    simp [gudp_parse_address, this, hsp]
  rcases h with h | h | h | ⟨sep, hsep, h⟩
  · exact absurd h hlen
  · exact absurd h hsp
  · have : ¬ cp.length + 1 > 22 := by omega
    simp [gudp_parse_address, this, hsp, strchr_none ':' cp h]
  · rw [gudp_parse_address_sep be cp address sep (by omega) hsp hsep, inet_addr_append_space]
    rcases h with h | h | h | h | h
    · simp [h]
    · simp [h, sscanf_hu_n_nil]
    · simp only [h, ne_eq, not_false_eq_true, true_or, if_true]
      split <;> rfl
    · simp only [h, ne_eq, not_false_eq_true, or_true, if_true]
      split <;> rfl
    · simp [h]

/-- The rejection of the text `1.2.3.4:80x`, which has a character left after the port
number. -/
theorem parse_address_rejects_sample :
    (gudp_parse_address false "1.2.3.4:80x".toList ⟨0, 0⟩).1 = -1 :=
  parse_address_rejects false "1.2.3.4:80x".toList ⟨0, 0⟩
    (Or.inr (Or.inr (Or.inr ⟨7, by decide, Or.inr (Or.inr (Or.inr (Or.inl (by decide))))⟩)))

/-- C2 fails on the code: in `1.2.3.4:+80` and in `1.2.3.4:` followed by a tab and `80` the
text after the first `:` (at offset 7) does not start with a number, its first character being
`+` or a tab and no digit, yet `gudp_parse_address` returns 0 and stores port 80, because
`%hu` reads a sign and skips white space. -/
theorem parse_address_accepts_non_digit_start :
    (strchr "1.2.3.4:+80".toList ':' = some 7 ∧
      ("1.2.3.4:+80".toList.drop 8).head? = some '+' ∧ isdigit '+' = false ∧
      (gudp_parse_address false "1.2.3.4:+80".toList ⟨0, 0⟩).1 = 0 ∧
      (gudp_parse_address true "1.2.3.4:+80".toList ⟨0, 0⟩).1 = 0) ∧
    (strchr "1.2.3.4:\t80".toList ':' = some 7 ∧
      ("1.2.3.4:\t80".toList.drop 8).head? = some '\t' ∧ isdigit '\t' = false ∧
      (gudp_parse_address false "1.2.3.4:\t80".toList ⟨0, 0⟩).1 = 0 ∧
      (gudp_parse_address true "1.2.3.4:\t80".toList ⟨0, 0⟩).1 = 0) := by
  decide

/-- C3 fails on the code: `gudp_parse_address` returns 0 on `1.2.3.4:65537` and stores port 1
(the value is truncated to 16 bits), on `1.2.3.4:+80` and on `1.2.3.4:` followed by a tab and
`80` it stores port 80, and on `1.2.3.4:-1` it stores port 65535. -/
theorem parse_address_accepts_bad_port :
    gudp_parse_address false "1.2.3.4:65537".toList ⟨0, 0⟩ = (0, ⟨0x04030201, 1⟩) ∧
    gudp_parse_address false "1.2.3.4:+80".toList ⟨0, 0⟩ = (0, ⟨0x04030201, 80⟩) ∧
    gudp_parse_address false "1.2.3.4:\t80".toList ⟨0, 0⟩ = (0, ⟨0x04030201, 80⟩) ∧
    gudp_parse_address false "1.2.3.4:-1".toList ⟨0, 0⟩ = (0, ⟨0x04030201, 65535⟩) := by
  decide

/-! ## Send, receive, callbacks, registration, close -/

/-- C4: if `address.ip` is 0 or `address.port` is 0 then `gudp_send` returns -1 and its trace
holds no call of `sendto` nor of any other operating-system function (only the error report);
and the number of `sendto` calls is 1 when both are non-zero and 0 otherwise. -/
theorem gudp_send_validates (cfg : config) (socket : gudp_socket) (buf : List Nat) (count : Nat)
    (address : gudp_address) (sendto_ret : Int) :
    ((address.ip = 0 ∨ address.port = 0) →
      (gudp_send cfg socket buf count address sendto_ret).1 = -1 ∧
      ∀ e ∈ (gudp_send cfg socket buf count address sendto_ret).2, e.is_os_call = false) ∧
    (gudp_send cfg socket buf count address sendto_ret).2.countP Event.is_sendto
      = if address.ip ≠ 0 ∧ address.port ≠ 0 then 1 else 0 := by
  by_cases h : address.ip = 0 ∨ address.port = 0
  · have h2 : ¬ (address.ip ≠ 0 ∧ address.port ≠ 0) := by
      rcases h with h | h <;> simp [h]
    simp [gudp_send, h, h2, Event.is_os_call, Event.is_sendto]
  · have h2 : address.ip ≠ 0 ∧ address.port ≠ 0 := by
      simp only [not_or] at h
      exact h
    refine ⟨fun h3 => absurd h3 h, ?_⟩
    rw [gudp_send, if_neg h, if_pos h2]
    simp only [PRINT_SOCKET_ERROR]
    split_ifs <;> simp [List.countP_cons, Event.is_sendto]

/-- C4 at a destination with ip 0: -1 is returned and nothing but the error report happens. -/
theorem gudp_send_validates_witness :
    (gudp_send posix_cfg registered_socket [1, 2] 2 ⟨0, 80⟩ 2).1 = -1 ∧
    ∀ e ∈ (gudp_send posix_cfg registered_socket [1, 2] 2 ⟨0, 80⟩ 2).2, e.is_os_call = false :=
  (gudp_send_validates posix_cfg registered_socket [1, 2] 2 ⟨0, 80⟩ 2).1 (Or.inl rfl)

/-- C5 fails on the code: `gudp_close` never invalidates `socket->fd`, so a second call on the
same socket does everything again. On Windows, with this socket the only one open, the first
call removes the source, closes descriptor 3, brings `socket_count` to 0 and runs
`WSACleanup`; the second call removes the source and closes descriptor 3 again and wraps
`socket_count` to `2 ^ 32 - 1`. On POSIX the second call removes and closes again. -/
theorem gudp_close_twice_repeats :
    gudp_close win32_cfg registered_socket 1
      = (0, 0, [Event.fp_remove 3, Event.close 3, Event.WSACleanup]) ∧
    gudp_close win32_cfg registered_socket 0
      = (0, 4294967295, [Event.fp_remove 3, Event.close 3]) ∧
    gudp_close posix_cfg registered_socket 0 = (0, 0, [Event.fp_remove 3, Event.close 3]) := by
  decide

/-- C6: if `fp_register`, `fp_remove` or `fp_read` is null then `gudp_register` returns -1 and
its trace holds no call of the registration function; and whenever `gudp_register` returns -1
the socket (its stored callbacks and user context included) is as it was before the call. -/
theorem gudp_register_atomic (socket : gudp_socket) (user : Nat) (callbacks : GUDP_CALLBACKS) :
    ((callbacks.fp_register = none ∨ callbacks.fp_remove = none ∨ callbacks.fp_read = none) →
      (gudp_register socket user callbacks).1 = -1 ∧
      ∀ e ∈ (gudp_register socket user callbacks).2.2, e.is_fp_register = false) ∧
    ((gudp_register socket user callbacks).1 = -1 →
      (gudp_register socket user callbacks).2.1 = socket) := by
  unfold gudp_register
  cases hreg : callbacks.fp_register with
  | none => simp [Event.is_fp_register]
  | some fp_register =>
    cases hrem : callbacks.fp_remove with
    | none => simp [Event.is_fp_register]
    | some fp_remove =>
      cases hread : callbacks.fp_read with
      | none => simp [Event.is_fp_register]
      | some fp_read =>
        simp only [Option.isNone_some, Bool.false_eq_true, if_false, reduceCtorEq, or_self,
          false_implies, true_and]
        intro h
        split at h
        · rename_i hne
          exact absurd h hne
        · rename_i hne
          simp [hne]

/-- C6 at a callback set without `fp_read`, and at a registration function that returns -1. -/
theorem gudp_register_atomic_witness :
    ((gudp_register (calloc_socket 3 gudp_mode.GUDP_MODE_CLIENT) 7
        ⟨none, none, some (fun _ => 0), some (fun _ => 0)⟩).1 = -1 ∧
      ∀ e ∈ (gudp_register (calloc_socket 3 gudp_mode.GUDP_MODE_CLIENT) 7
        ⟨none, none, some (fun _ => 0), some (fun _ => 0)⟩).2.2, e.is_fp_register = false) ∧
    (gudp_register (calloc_socket 3 gudp_mode.GUDP_MODE_CLIENT) 7
        ⟨some (fun _ _ _ _ => 0), none, some (fun _ => -1), some (fun _ => 0)⟩).2.1
      = calloc_socket 3 gudp_mode.GUDP_MODE_CLIENT :=
  ⟨(gudp_register_atomic (calloc_socket 3 gudp_mode.GUDP_MODE_CLIENT) 7
      ⟨none, none, some (fun _ => 0), some (fun _ => 0)⟩).1 (Or.inr (Or.inr rfl)),
   (gudp_register_atomic (calloc_socket 3 gudp_mode.GUDP_MODE_CLIENT) 7
      ⟨some (fun _ _ _ _ => 0), none, some (fun _ => -1), some (fun _ => 0)⟩).2 (by decide)⟩

/-- C8 fails on the code: registering the callbacks of `registered_socket` (no `fp_close`) on a
fresh socket succeeds with 0 and stores them, and `close_callback` on the registered socket
calls through the null `fp_close` instead of returning. -/
theorem close_callback_null_fp_close :
    (gudp_register (calloc_socket 3 gudp_mode.GUDP_MODE_CLIENT) 7
        registered_socket.callbacks).1 = 0 ∧
    (gudp_register (calloc_socket 3 gudp_mode.GUDP_MODE_CLIENT) 7
        registered_socket.callbacks).2.1.callbacks.fp_close = none ∧
    close_callback (gudp_register (calloc_socket 3 gudp_mode.GUDP_MODE_CLIENT) 7
        registered_socket.callbacks).2.1 = none :=
  ⟨by decide, rfl, by decide⟩

/-- C9: for a socket whose stored `fp_read` is set, `read_callback` does one `gudp_recv` on the
socket's own buffer with count 1472 and timeout 0, then calls `fp_read` once with the stored
user context, that buffer, the status `gudp_recv` returned (negative or not) and the address,
and returns what `fp_read` returns; `gudp_recv` itself calls no user function. -/
theorem read_callback_forwards (cfg : config) (socket : gudp_socket) (address : gudp_address)
    (os : recv_os) (fp_read : Nat → List Nat → Int → gudp_address → Int)
    (h : socket.callbacks.fp_read = some fp_read) :
    read_callback cfg socket address os
      = some
        (fp_read socket.user (gudp_recv cfg socket socket.buffer 1472 0 (some address) os).buf
          (gudp_recv cfg socket socket.buffer 1472 0 (some address) os).ret
          ((gudp_recv cfg socket socket.buffer 1472 0 (some address) os).address.getD address),
         (gudp_recv cfg socket socket.buffer 1472 0 (some address) os).buf,
         (gudp_recv cfg socket socket.buffer 1472 0 (some address) os).trace ++
          [Event.fp_read socket.user
            (gudp_recv cfg socket socket.buffer 1472 0 (some address) os).buf
            (gudp_recv cfg socket socket.buffer 1472 0 (some address) os).ret
            ((gudp_recv cfg socket socket.buffer 1472 0 (some address) os).address.getD address).ip
            ((gudp_recv cfg socket socket.buffer 1472 0 (some address) os).address.getD
              address).port
            (fp_read socket.user
              (gudp_recv cfg socket socket.buffer 1472 0 (some address) os).buf
              (gudp_recv cfg socket socket.buffer 1472 0 (some address) os).ret
              ((gudp_recv cfg socket socket.buffer 1472 0 (some address) os).address.getD
                address))]) ∧
    (gudp_recv cfg socket socket.buffer 1472 0 (some address) os).trace.countP Event.is_fp_read
      = 0 ∧
    (gudp_recv cfg socket socket.buffer 1472 0 (some address) os).trace.countP Event.is_recvfrom
      ≤ 1 := by
  refine ⟨?_, ?_, ?_⟩
  · simp [read_callback, h, BUFFER_SIZE]
  · unfold gudp_recv PRINT_SOCKET_ERROR
    simp only
    split_ifs <;> simp [List.countP_cons, Event.is_fp_read]
  · unfold gudp_recv PRINT_SOCKET_ERROR
    simp only
    split_ifs <;> simp [List.countP_cons, Event.is_recvfrom]

/-- C9 at `registered_socket`, with a `recvfrom` that fails: `fp_read` is reached, its result 0
is returned, and the trace has the four calls `setsockopt`, `recvfrom`, the error report and
`fp_read`. -/
theorem read_callback_forwards_witness :
    (read_callback posix_cfg registered_socket ⟨0, 0⟩ ⟨0, -1, 111, [], 0, 0⟩).map
        (fun q => (q.1, q.2.2.length)) = some (0, 4) := by
  rw [(read_callback_forwards posix_cfg registered_socket ⟨0, 0⟩ ⟨0, -1, 111, [], 0, 0⟩
    (fun _ _ _ _ => 0) rfl).1]
  decide

/-! ## The socket count on Windows -/

/-- The part of the socket-count bookkeeping that holds on Windows: from `socket_count = 0` and
an empty trace, after every sequence of complete `gudp_open` and `gudp_close` calls (each close
on a socket opened and not yet closed, `socket ()` returning -1 or a free non-negative
descriptor), `socket_count` is the number of sockets opened and not yet closed; the
`WSAStartup` calls whose result is not `SOCKET_ERROR` exceed the `WSACleanup` calls by 1 when
`socket_count > 0` and by 0 when it is 0; and a `gudp_open` that fails from there leaves
`socket_count` unchanged. -/
theorem socket_count_run (cfg : config) (hw : cfg.win32 = true) (ops : List Op)
    (hv : valid cfg World.init ops = true) :
    (run cfg World.init ops).socket_count = (run cfg World.init ops).opened.length ∧
    ((run cfg World.init ops).trace.countP Event.is_startup_passed : Int)
        - ((run cfg World.init ops).trace.countP Event.is_cleanup : Int)
      = (if 0 < (run cfg World.init ops).socket_count then 1 else 0) ∧
    ∀ (mode : gudp_mode) (address : gudp_address) (os : open_os),
      (gudp_open cfg mode address os (run cfg World.init ops).socket_count).1 = none →
      (gudp_open cfg mode address os (run cfg World.init ops).socket_count).2.1
        = (run cfg World.init ops).socket_count := by
  have hinv := Inv_run cfg hw ops World.init Inv_init hv
  have hbound := Inv_bound _ hinv
  obtain ⟨_, _, hcnt, htr⟩ := hinv
  refine ⟨hcnt, ?_, ?_⟩
  · rw [htr]
    split_ifs <;> simp
  · intro mode address os hnone
    have hlt : (run cfg World.init ops).socket_count + 1 < 2 ^ 32 := by omega
    rcases gudp_open_spec cfg hw mode address os _ hlt with ⟨_, hc, _⟩ | ⟨hs, _⟩
    · exact hc
    · rw [hs] at hnone
      exact absurd hnone (by simp)

/-- The bookkeeping of `socket_count_run` on `sample_ops`: two opens with a failed open between
them, then two closes. -/
theorem socket_count_run_sample :
    valid win32_cfg World.init sample_ops = true ∧
    (run win32_cfg World.init sample_ops).socket_count
      = (run win32_cfg World.init sample_ops).opened.length ∧
    ((run win32_cfg World.init sample_ops).trace.countP Event.is_startup_passed : Int)
        - ((run win32_cfg World.init sample_ops).trace.countP Event.is_cleanup : Int)
      = (if 0 < (run win32_cfg World.init sample_ops).socket_count then 1 else 0) :=
  ⟨by decide, (socket_count_run win32_cfg rfl sample_ops (by decide)).1,
    (socket_count_run win32_cfg rfl sample_ops (by decide)).2.1⟩

/-- C10 fails on the code: `wsa_init` tests the result of `WSAStartup` against `SOCKET_ERROR`,
but a failed `WSAStartup` returns an error code. In the run `startup_failure_ops` (a first
`gudp_open` in which `WSAStartup` returns `WSASYSNOTREADY` and `socket ()` returns -1) the
failure goes unnoticed, `gudp_open` fails on `socket ()`, and `wsa_count` runs `WSACleanup`:
with `socket_count = 0` there is no successful `WSAStartup` and one `WSACleanup`, so the
difference is -1 and not 0. -/
theorem wsa_startup_failure_unnoticed :
    valid win32_cfg World.init startup_failure_ops = true ∧
    (gudp_open win32_cfg gudp_mode.GUDP_MODE_SERVER ⟨0, 8080⟩ ⟨WSASYSNOTREADY, -1, 0, 0, true⟩
      0).1.isNone = true ∧
    (run win32_cfg World.init startup_failure_ops).socket_count = 0 ∧
    (run win32_cfg World.init startup_failure_ops).trace
      = [Event.WSAStartup WSASYSNOTREADY, Event.socket (-1), Event.print_socket_error "socket",
         Event.WSACleanup] ∧
    (run win32_cfg World.init startup_failure_ops).trace.countP Event.is_startup_ok = 0 ∧
    (run win32_cfg World.init startup_failure_ops).trace.countP Event.is_cleanup = 1 ∧
    ((run win32_cfg World.init startup_failure_ops).trace.countP Event.is_startup_ok : Int)
        - ((run win32_cfg World.init startup_failure_ops).trace.countP Event.is_cleanup : Int)
      = -1 := by
  decide

/-! ## The receive timeout -/

/-- C11: on POSIX, for every timeout `t` in milliseconds (in particular every 32-bit one, the
type of the parameter), the `struct timeval` that
`gudp_recv` passes to `setsockopt (SO_RCVTIMEO)` (the first call of its trace) has
`tv_sec = t / 1000` and `tv_usec = (t mod 1000) * 1000`, although `t * 1000` and
`sec * 1000000` are computed modulo `2 ^ 32`; hence `tv_usec < 1000000` and
`tv_sec * 1000000 + tv_usec = t * 1000`; and for `t = 0` both fields are 0. -/
theorem gudp_recv_timeval (cfg : config) (socket : gudp_socket) (buf : List Nat)
    (count t : Nat) (a : gudp_address) (os : recv_os)
    (hposix : cfg.win32 = false) :
    recv_optval cfg t = rcvtimeo.timeval (t / 1000) (t % 1000 * 1000) ∧
    (gudp_recv cfg socket buf count t (some a) os).trace.head?
      = some (Event.setsockopt socket.fd (rcvtimeo.timeval (t / 1000) (t % 1000 * 1000))
          os.setsockopt_ret) ∧
    t % 1000 * 1000 < 1000000 ∧
    t / 1000 * 1000000 + t % 1000 * 1000 = t * 1000 ∧
    recv_optval cfg 0 = rcvtimeo.timeval 0 0 := by
  have husec : (t * 1000 % 2 ^ 32 + 2 ^ 32 - t / 1000 * 1000000 % 2 ^ 32) % 2 ^ 32
      = t % 1000 * 1000 := by omega
  have hopt : recv_optval cfg t = rcvtimeo.timeval (t / 1000) (t % 1000 * 1000) := by
    simp only [recv_optval, hposix, Bool.not_false, if_true, husec]
  refine ⟨hopt, ?_, by omega, by omega, ?_⟩
  · unfold gudp_recv
    simp only [hopt]
    split_ifs <;> rfl
  · simp [recv_optval, hposix]

/-- C11 at the largest timeout `2 ^ 32 - 1` ms, where both products wrap: 4294967 s and
295000 µs. -/
theorem gudp_recv_timeval_witness :
    recv_optval posix_cfg 4294967295 = rcvtimeo.timeval 4294967 295000 ∧
    (gudp_recv posix_cfg registered_socket [0, 0] 2 4294967295 (some ⟨0, 0⟩)
        ⟨0, -1, EAGAIN, [], 0, 0⟩).trace.head?
      = some (Event.setsockopt registered_socket.fd (rcvtimeo.timeval 4294967 295000) 0) :=
  ⟨(gudp_recv_timeval posix_cfg registered_socket [0, 0] 2 4294967295 ⟨0, 0⟩
      ⟨0, -1, EAGAIN, [], 0, 0⟩ rfl).1,
   (gudp_recv_timeval posix_cfg registered_socket [0, 0] 2 4294967295 ⟨0, 0⟩
      ⟨0, -1, EAGAIN, [], 0, 0⟩ rfl).2.1⟩

end Gudp
